import Mathlib

/-
A shallow embedding of the physics core of the double-pendulum simulation
(src/physics/pendulum.py, pendulum_system.py, path_tracer.py,
physics_engine.py), together with theorems checking the specification's
claims against it.

Numbers: the Python code computes with floats; the embedding models them as
exact numbers — ℝ for the dynamics (which use sin/cos/sqrt) and ℚ for the
fixed-timestep accumulator and the trail bookkeeping, which only use field
arithmetic, `int()` truncation and comparisons.

Python's dynamic attribute lookup is modelled explicitly where it matters:
each class's method names are listed, and a call of a method the class does
not define is embedded as an `AttributeError` value raised at the program
point of the call, after the side effects that precede it.
-/

set_option maxHeartbeats 1000000

namespace DoublePendulum

/-- Python runtime errors the embedded code can raise. `attributeError cls m`
models Python raising `AttributeError` when the method named `m` is looked up
on an instance of class `cls` and the class does not define it. -/
inductive PyError where
  | attributeError (cls method : String)
  deriving DecidableEq, Repr

/-- Python's `int()` applied to a number: truncation toward zero. -/
def pyInt {α : Type*} [LinearOrderedField α] [FloorRing α] (x : α) : ℤ :=
  if 0 ≤ x then ⌊x⌋ else ⌈x⌉

/-- An RGB triple as stored for trail points. -/
abbrev Color := ℤ × ℤ × ℤ

/-- Modelled from the Python standard library `colorsys.hsv_to_rgb`
specialized to s = 1, v = 1 (the only way `PathTracer.add_point` calls it),
composed with the `int(c * 255)` scaling done in `add_point`. -/
def hsv_to_rgb255 (h : ℚ) : Color :=
  let i : ℤ := pyInt (h * 6)
  let f : ℚ := h * 6 - (i : ℚ)
  let p : ℚ := 0
  let q : ℚ := 1 - f
  let t : ℚ := f
  let rgb : ℚ × ℚ × ℚ :=
    if i % 6 = 0 then (1, t, p)
    else if i % 6 = 1 then (q, 1, p)
    else if i % 6 = 2 then (p, 1, t)
    else if i % 6 = 3 then (p, q, 1)
    else if i % 6 = 4 then (t, p, 1)
    else (1, p, q)
  (pyInt (rgb.1 * 255), pyInt (rgb.2.1 * 255), pyInt (rgb.2.2 * 255))

/-- One stored trail point — the tuple `(x, y, color, alpha)` that
`PathTracer.add_point` appends. The coordinate type is a parameter so the
same embedding serves the real-valued pendulum positions and exact rational
test points. -/
structure PathPoint (α : Type*) where
  x : α
  y : α
  color : Color
  alpha : ℤ
  deriving DecidableEq, Repr

/-- Append to a `collections.deque` with a `maxlen` bound: the new element
goes on the right, and elements are dropped from the left until the stored
length is at most `maxlen`. -/
def dequeAppend {β : Type*} (maxlen : ℕ) (l : List β) (b : β) : List β :=
  let l' := l ++ [b]
  l'.drop (l'.length - maxlen)

/-- The state of `PathTracer` (path_tracer.py, lines 9–148). `points` with
`maxlen` models the `deque(maxlen=max_points)`; the remaining fields are the
instance attributes set in `__init__`. The render-only attribute
`line_thickness` is kept for completeness. -/
structure PathTracer (α : Type*) where
  points : List (PathPoint α)
  maxlen : ℕ
  enabled : Bool
  color : Color
  fade_rate : ℚ
  min_alpha : ℤ
  line_thickness : ℤ
  rainbow_mode : Bool
  hue_increment : ℚ
  current_hue : ℚ
  deriving Repr

/-- `PathTracer.__init__(max_points)` (the Python default argument is 1000). -/
def PathTracer.init (α : Type*) (max_points : ℕ) : PathTracer α :=
  { points := []
    maxlen := max_points
    enabled := true
    color := (255, 0, 0)
    fade_rate := 19/20
    min_alpha := 10
    line_thickness := 2
    rainbow_mode := false
    hue_increment := 1/100
    current_hue := 0 }

/-- The method names the Python class `PathTracer` defines (path_tracer.py):
Python attribute lookups on its instances succeed exactly for these names. -/
def PathTracer.methods : List String :=
  ["__init__", "clear", "add_point", "update", "render", "set_color",
   "toggle_rainbow_mode", "set_enabled", "is_enabled"]

/-- `PathTracer.clear`. -/
def PathTracer.clear {α : Type*} (tr : PathTracer α) : PathTracer α :=
  { tr with points := [] }

/-- `PathTracer.add_point(position)`: if enabled, append `(x, y, color, 255)`
where the color is the configured one, or, in rainbow mode, is derived from
the hue cursor, which then advances by `hue_increment` modulo 1. -/
def PathTracer.add_point {α : Type*} (tr : PathTracer α) (x y : α) :
    PathTracer α :=
  if !tr.enabled then tr
  else if tr.rainbow_mode then
    { tr with
      current_hue := Int.fract (tr.current_hue + tr.hue_increment)
      points := dequeAppend tr.maxlen tr.points
        ⟨x, y, hsv_to_rgb255 tr.current_hue, 255⟩ }
  else
    { tr with
      points := dequeAppend tr.maxlen tr.points ⟨x, y, tr.color, 255⟩ }

/-- `PathTracer.update`: fade every point by `fade_rate` with `int()`
truncation (clamped below at 0), keeping only points whose faded alpha is
strictly above `min_alpha`. -/
def PathTracer.update {α : Type*} (tr : PathTracer α) : PathTracer α :=
  if tr.points.isEmpty then tr
  else
    let faded := tr.points.map (fun pt =>
      { pt with alpha := max (pyInt ((pt.alpha : ℚ) * tr.fade_rate)) 0 })
    { tr with points := faded.filter (fun pt => tr.min_alpha < pt.alpha) }

/-- `PathTracer.set_color(color)`. -/
def PathTracer.set_color {α : Type*} (tr : PathTracer α) (c : Color) :
    PathTracer α :=
  { tr with color := c }

/-- `PathTracer.toggle_rainbow_mode`. -/
def PathTracer.toggle_rainbow_mode {α : Type*} (tr : PathTracer α) :
    PathTracer α :=
  { tr with rainbow_mode := !tr.rainbow_mode }

/-- `PathTracer.set_enabled(enabled)`: disabling clears the stored points. -/
def PathTracer.set_enabled {α : Type*} (tr : PathTracer α) (b : Bool) :
    PathTracer α :=
  let tr' := { tr with enabled := b }
  if !b then tr'.clear else tr'

/-- The mutating entry points of `PathTracer` (the rendering method is pure
with respect to the tracer state and is omitted). -/
inductive PTOp (α : Type*) where
  | addPoint (x y : α)
  | decay
  | clear
  | setEnabled (b : Bool)
  | setColor (c : Color)
  | toggleRainbow
  deriving Repr

/-- Apply one `PathTracer` operation. -/
def PTOp.apply {α : Type*} (tr : PathTracer α) : PTOp α → PathTracer α
  | .addPoint x y => tr.add_point x y
  | .decay => tr.update
  | .clear => tr.clear
  | .setEnabled b => tr.set_enabled b
  | .setColor c => tr.set_color c
  | .toggleRainbow => tr.toggle_rainbow_mode

/-- Run a sequence of `PathTracer` operations from a starting state. -/
def PTOp.run {α : Type*} (tr : PathTracer α) (ops : List (PTOp α)) :
    PathTracer α :=
  ops.foldl PTOp.apply tr

/-- The parameter container `PendulumParams` (pendulum_params.py). Only the
fields that `Pendulum.initialize` reads are modelled; the `randomize` and
`clone` helpers are I/O-flavoured conveniences with no bearing on the claims. -/
structure PendulumParams where
  offsetX : ℝ
  offsetY : ℝ
  length1 : ℝ
  length2 : ℝ
  mass1 : ℝ
  mass2 : ℝ
  angle1 : ℝ
  angle2 : ℝ
  velocity1 : ℝ
  velocity2 : ℝ
  showWire : Bool
  pathColor : Color
  pathDuration : ℝ

/-- The defaults set in `PendulumParams.__init__`. -/
noncomputable def PendulumParams.default : PendulumParams :=
  { offsetX := 400, offsetY := 100
    length1 := 120, length2 := 120
    mass1 := 10, mass2 := 10
    angle1 := Real.pi / 4, angle2 := Real.pi / 4
    velocity1 := 0, velocity2 := 0
    showWire := true
    pathColor := (80, 180, 255)
    pathDuration := 5 }

/-- The state of one `Pendulum` (pendulum.py). The render-only color
attributes (`wireColor`, `bobColor1`, `bobColor2`, `selectedColor`) are
omitted: no modelled operation reads or writes them. `draggingBob` keeps the
source encoding 0 = not dragging, 1 = first (inner) bob, 2 = second (outer)
bob. -/
structure Pendulum where
  id : ℤ
  offsetX : ℝ
  offsetY : ℝ
  length1 : ℝ
  length2 : ℝ
  mass1 : ℝ
  mass2 : ℝ
  angle1 : ℝ
  angle2 : ℝ
  vel1 : ℝ
  vel2 : ℝ
  initial_angle1 : ℝ
  initial_angle2 : ℝ
  showWire : Bool
  bobRadius1 : ℝ
  bobRadius2 : ℝ
  draggingBob : ℕ
  pathTracer : Option (PathTracer ℝ)

/-- The defaults set in `Pendulum.__init__`. -/
def Pendulum.default : Pendulum :=
  { id := -1
    offsetX := 0, offsetY := 0
    length1 := 100, length2 := 100
    mass1 := 10, mass2 := 10
    angle1 := 0, angle2 := 0
    vel1 := 0, vel2 := 0
    initial_angle1 := 0, initial_angle2 := 0
    showWire := true
    bobRadius1 := 10, bobRadius2 := 10
    draggingBob := 0
    pathTracer := none }

/-- `Pendulum.initialize(params)` (pendulum.py lines 54–89): copies the
parameters in, stores the reset baseline, assigns a fresh
`PathTracer()` (so `max_points` takes its default 1000), and then calls
`self.pathTracer.initialize(pathColor, pathDuration)`. The class
`PathTracer` defines no method named `initialize` (see
`PathTracer.methods`), so that call raises `AttributeError` — after every
assignment, including the `pathTracer` one, has already happened. -/
def Pendulum.initialize (p : Pendulum) (params : PendulumParams) :
    Pendulum × Option PyError :=
  let p' := { p with
    offsetX := params.offsetX, offsetY := params.offsetY
    length1 := params.length1, length2 := params.length2
    mass1 := params.mass1, mass2 := params.mass2
    angle1 := params.angle1, angle2 := params.angle2
    vel1 := params.velocity1, vel2 := params.velocity2
    initial_angle1 := params.angle1, initial_angle2 := params.angle2
    showWire := params.showWire
    pathTracer := some (PathTracer.init ℝ 1000) }
  (p', some (PyError.attributeError "PathTracer" "initialize"))

/-- `Pendulum.reset` (pendulum.py lines 91–100). -/
def Pendulum.reset (p : Pendulum) : Pendulum :=
  { p with
    angle1 := p.initial_angle1, angle2 := p.initial_angle2
    vel1 := 0, vel2 := 0
    pathTracer := p.pathTracer.map PathTracer.clear }

/-- `Pendulum._calculate_bob1_position` (pendulum.py lines 268–277): the
`int(...)` truncations of the source are kept via `pyInt`. -/
noncomputable def Pendulum.bob1 (p : Pendulum) : ℝ × ℝ :=
  (p.offsetX + (pyInt (p.length1 * Real.sin p.angle1) : ℝ),
   p.offsetY + (pyInt (p.length1 * Real.cos p.angle1) : ℝ))

/-- `Pendulum._calculate_bob2_position` (pendulum.py lines 279–289). -/
noncomputable def Pendulum.bob2 (p : Pendulum) : ℝ × ℝ :=
  (p.bob1.1 + (pyInt (p.length2 * Real.sin p.angle2) : ℝ),
   p.bob1.2 + (pyInt (p.length2 * Real.cos p.angle2) : ℝ))

/-- Euclidean distance from a mouse position to the second (outer) bob, as
computed in `Pendulum.startDrag`. -/
noncomputable def Pendulum.distToBob2 (p : Pendulum) (pos : ℝ × ℝ) : ℝ :=
  Real.sqrt ((pos.1 - p.bob2.1) * (pos.1 - p.bob2.1) +
    (pos.2 - p.bob2.2) * (pos.2 - p.bob2.2))

/-- Euclidean distance from a mouse position to the first (inner) bob, as
computed in `Pendulum.startDrag`. -/
noncomputable def Pendulum.distToBob1 (p : Pendulum) (pos : ℝ × ℝ) : ℝ :=
  Real.sqrt ((pos.1 - p.bob1.1) * (pos.1 - p.bob1.1) +
    (pos.2 - p.bob1.2) * (pos.2 - p.bob1.2))

/-- `Pendulum.startDrag(mousePos)` (pendulum.py lines 198–230): tests the
second (outer) bob first, then the first (inner) bob, each by Euclidean
distance against the bob's radius; on a hit it records which bob is dragged
and returns `True`. No other field changes — in particular the angular
velocities are left as they were. -/
noncomputable def Pendulum.startDrag (p : Pendulum) (pos : ℝ × ℝ) :
    Pendulum × Bool :=
  if p.distToBob2 pos ≤ p.bobRadius2 then ({ p with draggingBob := 2 }, true)
  else if p.distToBob1 pos ≤ p.bobRadius1 then
    ({ p with draggingBob := 1 }, true)
  else (p, false)

/-- Python's `math.atan2(y, x)`, via the argument of the complex number
`x + y·i`. -/
noncomputable def atan2 (y x : ℝ) : ℝ := Complex.arg (⟨x, y⟩ : ℂ)

/-- `Pendulum.updateDrag(mousePos)` (pendulum.py lines 232–258); the source
calls `math.atan2(dx, dy)`, measuring the angle from the vertical. -/
noncomputable def Pendulum.updateDrag (p : Pendulum) (pos : ℝ × ℝ) : Pendulum :=
  if p.draggingBob = 1 then
    { p with angle1 := atan2 (pos.1 - p.offsetX) (pos.2 - p.offsetY)
             vel1 := 0 }
  else if p.draggingBob = 2 then
    { p with angle2 := atan2 (pos.1 - p.bob1.1) (pos.2 - p.bob1.2)
             vel2 := 0 }
  else p

/-- `Pendulum.endDrag` (pendulum.py lines 260–262). -/
def Pendulum.endDrag (p : Pendulum) : Pendulum :=
  { p with draggingBob := 0 }

/-- `Pendulum.update(deltaTime, gravity)` (pendulum.py lines 102–162).
Returns early when dragging; otherwise computes the accelerations of the
Lagrangian double-pendulum equations, updates the velocities from them, then
the angles from the just-updated velocities, and finally reaches
`self.pathTracer.addPoint(p2x, p2y, deltaTime)` whenever `pathTracer` is not
`None`. The class `PathTracer` defines no method named `addPoint` (its
point-append method is `add_point`, see `PathTracer.methods`), so that call
raises `AttributeError` — after the velocity and angle mutations have
already happened and without any point being appended to the tracer. -/
noncomputable def Pendulum.update (p : Pendulum) (deltaTime gravity : ℝ) :
    Pendulum × Option PyError :=
  if p.draggingBob > 0 then (p, none)
  else
    let sin1 := Real.sin p.angle1
    let cos1 := Real.cos p.angle1
    let sin12 := Real.sin (p.angle1 - p.angle2)
    let cos12 := Real.cos (p.angle1 - p.angle2)
    let m1 := p.mass1
    let m2 := p.mass2
    let l1 := p.length1
    let l2 := p.length2
    let num1 := -gravity * (2 * m1 + m2) * sin1
      - m2 * gravity * Real.sin (p.angle1 - 2 * p.angle2)
      - 2 * sin12 * m2 * (p.vel2 ^ 2 * l2 + p.vel1 ^ 2 * l1 * cos12)
    let num2 := 2 * sin12 * (p.vel1 ^ 2 * l1 * (m1 + m2)
      + gravity * (m1 + m2) * cos1) + p.vel2 ^ 2 * l2 * m2 * cos12
    let den := l1 * (2 * m1 + m2 - m2 * Real.cos (2 * (p.angle1 - p.angle2)))
    let acc1 := num1 / den
    let acc2 := num2 / (l2 * den)
    let vel1' := p.vel1 + acc1 * deltaTime
    let vel2' := p.vel2 + acc2 * deltaTime
    let p' := { p with
      vel1 := vel1', vel2 := vel2'
      angle1 := p.angle1 + vel1' * deltaTime
      angle2 := p.angle2 + vel2' * deltaTime }
    match p.pathTracer with
    | none => (p', none)
    | some _ => (p', some (PyError.attributeError "PathTracer" "addPoint"))

/-- The state of `PendulumSystem` (pendulum_system.py). The Python field
`dragging_pendulum` holds a reference to a pendulum object; since ids are
assigned uniquely at creation, the reference is modelled by the id of the
referenced pendulum. -/
structure PendulumSystem where
  pendulums : List Pendulum
  next_id : ℤ
  dragging_pendulum : Option ℤ
  gravity : ℝ
  time_scale : ℝ
  paused : Bool

/-- `PendulumSystem.__init__`. -/
def PendulumSystem.init : PendulumSystem :=
  { pendulums := []
    next_id := 0
    dragging_pendulum := none
    gravity := 9.8
    time_scale := 1
    paused := true }

/-- `PendulumSystem.createPendulum(params)` (pendulum_system.py lines
29–53): builds a fresh `Pendulum()`, assigns it `next_id` and increments the
counter, then calls `pendulum.initialize(params)`. Any exception raised
there propagates before `self.pendulums.append(pendulum)` runs, so the
collection is unchanged while `next_id` has already been consumed. No
validation of the parameters occurs anywhere on this path. -/
def PendulumSystem.createPendulum (sys : PendulumSystem)
    (params : PendulumParams) : PendulumSystem × Except PyError ℤ :=
  let pendulum := { Pendulum.default with id := sys.next_id }
  let sys' := { sys with next_id := sys.next_id + 1 }
  match pendulum.initialize params with
  | (_, some e) => (sys', Except.error e)
  | (p', none) =>
    ({ sys' with pendulums := sys'.pendulums ++ [p'] }, Except.ok p'.id)

/-- `PendulumSystem.removePendulum(pendulum_id)` (lines 55–70). -/
def PendulumSystem.removePendulum (sys : PendulumSystem) (pendulum_id : ℤ) :
    PendulumSystem × Bool :=
  if sys.pendulums.any (fun p => p.id = pendulum_id) then
    ({ sys with pendulums :=
        sys.pendulums.eraseP (fun p => p.id = pendulum_id) }, true)
  else (sys, false)

/-- The `for pendulum in self.pendulums: pendulum.update(scaled_dt, ...)`
loop of `PendulumSystem.update`: updates each pendulum in order; the first
exception aborts the loop (later pendulums stay un-updated) and propagates. -/
noncomputable def updateEach (dt gravity : ℝ) :
    List Pendulum → List Pendulum × Option PyError
  | [] => ([], none)
  | p :: rest =>
    match p.update dt gravity with
    | (p', some e) => (p' :: rest, some e)
    | (p', none) =>
      let r := updateEach dt gravity rest
      (p' :: r.1, r.2)

/-- Advance every pendulum of a list by one integrator step with the given
dt, keeping only the resulting states (the error-free composite effect of
the update loop on a list that raises nothing). -/
noncomputable def stepAll (dt gravity : ℝ) (l : List Pendulum) :
    List Pendulum :=
  l.map (fun p => (p.update dt gravity).1)

/-- `PendulumSystem.update(deltaTime)` (pendulum_system.py lines 88–104):
returns immediately when paused; otherwise computes
`scaled_dt = deltaTime * time_scale` and updates every pendulum with
`scaled_dt` — the time scale multiplies the step passed to the integrator. -/
noncomputable def PendulumSystem.update (sys : PendulumSystem)
    (deltaTime : ℝ) : PendulumSystem × Option PyError :=
  if sys.paused then (sys, none)
  else
    let scaled_dt := deltaTime * sys.time_scale
    let r := updateEach scaled_dt sys.gravity sys.pendulums
    ({ sys with pendulums := r.1 }, r.2)

/-- The `for pendulum in reversed(self.pendulums)` loop of
`PendulumSystem.handleMouseDown`, acting on the (already reversed) list:
tries `startDrag` on each pendulum in order and stops at the first hit,
returning the updated list together with the id of the grabbed pendulum (if
any). -/
noncomputable def grabAux (pos : ℝ × ℝ) :
    List Pendulum → List Pendulum × Option ℤ
  | [] => ([], none)
  | p :: rest =>
    match p.startDrag pos with
    | (p', true) => (p' :: rest, some p'.id)
    | (p', false) =>
      let r := grabAux pos rest
      (p' :: r.1, r.2)

/-- `PendulumSystem.handleMouseDown(pos)` (pendulum_system.py lines
116–132): iterates the pendulums in reverse creation order, grabs the first
one whose `startDrag` succeeds and records it as `dragging_pendulum`;
nothing else is touched — in particular a previously dragging pendulum's own
`draggingBob` state is not reset. -/
noncomputable def PendulumSystem.handleMouseDown (sys : PendulumSystem)
    (pos : ℝ × ℝ) : PendulumSystem × Bool :=
  let r := grabAux pos sys.pendulums.reverse
  match r.2 with
  | some i =>
    ({ sys with pendulums := r.1.reverse, dragging_pendulum := some i }, true)
  | none => ({ sys with pendulums := r.1.reverse }, false)

/-- `PendulumSystem.handleMouseUp` (lines 144–148). -/
def PendulumSystem.handleMouseUp (sys : PendulumSystem) : PendulumSystem :=
  match sys.dragging_pendulum with
  | none => sys
  | some i =>
    { sys with
      pendulums := sys.pendulums.map (fun p =>
        if p.id = i then p.endDrag else p)
      dragging_pendulum := none }

/-- The state of `PhysicsEngine` (physics_engine.py). The wall-clock
bookkeeping (`last_time`, `pygame.time.get_ticks`) is I/O; the embedding
takes the measured frame delta as the input of `update` instead. The
accumulator arithmetic is exact rational arithmetic. -/
structure PhysicsEngine where
  system : PendulumSystem
  accumulated_time : ℚ
  min_step : ℚ

/-- The `while self.accumulated_time >= self.min_step` loop of
`PhysicsEngine.update`, supplied with enough fuel: each iteration runs
`pendulum_system.update(min_step)` and then decrements the accumulator by
one fixed step. An exception propagating from the system update aborts the
loop at that point — before that iteration's decrement. Returns the
remaining accumulator, the system, the number of completed iterations, and
the propagated exception, if any. -/
noncomputable def engineSteps (minStep : ℚ) :
    ℕ → ℚ → PendulumSystem → ℚ × PendulumSystem × ℕ × Option PyError
  | 0, acc, sys => (acc, sys, 0, none)
  | fuel + 1, acc, sys =>
    if minStep ≤ acc then
      match sys.update (minStep : ℝ) with
      | (sys', some e) => (acc, sys', 0, some e)
      | (sys', none) =>
        let r := engineSteps minStep fuel (acc - minStep) sys'
        (r.1, r.2.1, r.2.2.1 + 1, r.2.2.2)
    else (acc, sys, 0, none)

/-- `PhysicsEngine.update` (physics_engine.py lines 47–64) on a measured
frame delta: clamps the delta at 0.1 s, adds the clamped delta to the
accumulator unconditionally (the pause flag is only consulted inside
`PendulumSystem.update`), and drains the accumulator in fixed `min_step`
increments. The fuel `⌊acc / min_step⌋ + 1` dominates the number of loop
iterations, so the fuelled loop equals the source's `while` loop. Returns
the engine together with the number of fixed steps instructed and any
propagated exception. -/
noncomputable def PhysicsEngine.update (e : PhysicsEngine)
    (delta_time : ℚ) : PhysicsEngine × ℕ × Option PyError :=
  let d := if delta_time > 1/10 then 1/10 else delta_time
  let acc := e.accumulated_time + d
  let fuel := (⌊acc / e.min_step⌋).toNat + 1
  let r := engineSteps e.min_step fuel acc e.system
  ({ e with accumulated_time := r.1, system := r.2.1 }, r.2.2.1, r.2.2.2)

/-- The angular accelerations `(acc1, acc2)` exactly as §4.1 of the
specification writes them, with Δ = θ1 − θ2: a second definition following
the spec's own words, for comparison against the code's `Pendulum.update`. -/
noncomputable def specAcc (m1 m2 L1 L2 θ1 θ2 ω1 ω2 g : ℝ) : ℝ × ℝ :=
  let Δ := θ1 - θ2
  let num1 := -g * (2 * m1 + m2) * Real.sin θ1
    - m2 * g * Real.sin (θ1 - 2 * θ2)
    - 2 * Real.sin Δ * m2 * (ω2 ^ 2 * L2 + ω1 ^ 2 * L1 * Real.cos Δ)
  let num2 := 2 * Real.sin Δ * (ω1 ^ 2 * L1 * (m1 + m2)
    + g * (m1 + m2) * Real.cos θ1)
    + ω2 ^ 2 * L2 * m2 * Real.cos Δ
  let den := L1 * (2 * m1 + m2 - m2 * Real.cos (2 * Δ))
  (num1 / den, num2 / (L2 * den))

/-- The `specAcc` arguments taken from a pendulum state. -/
noncomputable def Pendulum.specAccOf (p : Pendulum) (g : ℝ) : ℝ × ℝ :=
  specAcc p.mass1 p.mass2 p.length1 p.length2 p.angle1 p.angle2 p.vel1 p.vel2 g

/-- The per-tracer well-formedness used for the buffer-invariant claim:
the fade rate and capacity are the configured constants, the stored length
never exceeds the capacity, and every stored alpha lies in [0, 255]. -/
def PathTracer.Good {α : Type*} (n : ℕ) (tr : PathTracer α) : Prop :=
  tr.fade_rate = 19/20 ∧ tr.maxlen = n ∧ tr.points.length ≤ n ∧
  ∀ pt ∈ tr.points, 0 ≤ pt.alpha ∧ pt.alpha ≤ 255

/-- A parameter set with a non-positive length, for the creation claims. -/
noncomputable def invalidParams : PendulumParams :=
  { PendulumParams.default with length1 := -5 }

/-- A concrete tracer state after two appends into a capacity-2 buffer. -/
def trW : PathTracer ℚ :=
  PTOp.run (PathTracer.init ℚ 2) [.addPoint 0 0, .addPoint 1 1]

/-- Concrete pendulum A: anchored at the origin, hanging straight down
(both angles 0), so its bobs sit at (0, 100) and (0, 200). -/
def pA : Pendulum := { Pendulum.default with id := 0 }

/-- Concrete pendulum B: as `pA` but anchored at (500, 0), so its bobs sit
at (500, 100) and (500, 200). -/
def pB : Pendulum := { Pendulum.default with id := 1, offsetX := 500 }

/-- Pendulum A while its outer bob is being dragged. -/
def pAdrag : Pendulum := { pA with draggingBob := 2 }

/-- A system holding A and B (in creation order), with nothing dragging. -/
def sysAB : PendulumSystem :=
  { pendulums := [pA, pB], next_id := 2, dragging_pendulum := none
    gravity := 9.8, time_scale := 1, paused := true }

/-- A system holding A (already dragging its outer bob) and B. -/
def sysW5 : PendulumSystem :=
  { pendulums := [pAdrag, pB], next_id := 2, dragging_pendulum := some 0
    gravity := 9.8, time_scale := 1, paused := true }

/-- Pendulum B while its outer bob is being dragged. -/
def pBdrag : Pendulum := { pB with draggingBob := 2 }

/-- `sysAB` after a pointer-down at A's outer bob. -/
def sysAB1 : PendulumSystem :=
  { sysAB with pendulums := [pAdrag, pB], dragging_pendulum := some 0 }

/-- `sysAB1` after a further pointer-down at B's outer bob: both pendulums
now carry a non-Idle drag state. -/
def sysAB2 : PendulumSystem :=
  { sysAB with pendulums := [pAdrag, pBdrag], dragging_pendulum := some 1 }

/-- A pendulum like `pA` whose outer joint still has angular velocity 5. -/
def pC8 : Pendulum := { Pendulum.default with id := 0, vel2 := 5 }

/-- A one-pendulum system around `pC8`. -/
def sysC8 : PendulumSystem :=
  { pendulums := [pC8], next_id := 1, dragging_pendulum := none
    gravity := 9.8, time_scale := 1, paused := true }

/-- `pC8` once its outer bob has been grabbed: drag state 2, velocity kept. -/
def pC8drag : Pendulum := { pC8 with draggingBob := 2 }

/-- A pendulum at rest hanging straight down except for outer angular
velocity 1; with both angles 0 every trigonometric term is exact, and one
integrator step gives `vel2 = 1 + dt/200`. -/
def p6 : Pendulum := { Pendulum.default with id := 0, vel2 := 1 }

/-- A running (unpaused) one-pendulum system with time scale 2. -/
def sys6 : PendulumSystem :=
  { pendulums := [p6], next_id := 1, dragging_pendulum := none
    gravity := 9.8, time_scale := 2, paused := false }

/-- An engine over `sys6` with an empty accumulator and the fixed 1/240 s
step. -/
def e6 : PhysicsEngine :=
  { system := sys6, accumulated_time := 0, min_step := 1/240 }

/-- A paused engine with no pendulums and an empty accumulator. -/
def eP : PhysicsEngine :=
  { system := PendulumSystem.init, accumulated_time := 0, min_step := 1/240 }

/-- The default pendulum released from θ1 = θ2 = π/4 at rest, with the
spec's example lengths 120. -/
noncomputable def p3 : Pendulum :=
  { Pendulum.default with
    length1 := 120, length2 := 120
    angle1 := Real.pi / 4, angle2 := Real.pi / 4
    initial_angle1 := Real.pi / 4, initial_angle2 := Real.pi / 4 }

/-- A default pendulum that owns a path tracer, as every pendulum built by
`Pendulum.initialize` would. -/
def p10 : Pendulum :=
  { Pendulum.default with pathTracer := some (PathTracer.init ℝ 1000) }

/-- C2: for every system state and every parameter set, `createPendulum`
raises an uncaught `AttributeError` (because `Pendulum.initialize` invokes
`PathTracer.initialize`, a method the `PathTracer` class does not define);
no pendulum is appended to the collection, yet `next_id` has already been
incremented when the exception escapes. -/
theorem createPendulum_always_raises (sys : PendulumSystem)
    (params : PendulumParams) :
    (sys.createPendulum params).2
      = Except.error (PyError.attributeError "PathTracer" "initialize") ∧
    (sys.createPendulum params).1.pendulums = sys.pendulums ∧
    (sys.createPendulum params).1.next_id = sys.next_id + 1 ∧
    "initialize" ∉ PathTracer.methods :=
  ⟨rfl, rfl, rfl, by decide⟩

/-- C1 (code bug): `createPendulum` performs no validation of
`L1, L2, m1, m2 > 0` and never returns an id. On a parameter set with a
negative length it raises `AttributeError` instead of rejecting with an
`InvalidParameter` failure, and on the fully valid default parameter set it
raises the same error instead of returning a fresh id; in both cases the
collection stays empty while the id counter has been consumed. -/
theorem createPendulum_no_validation :
    invalidParams.length1 = -5 ∧ ¬ 0 < invalidParams.length1 ∧
    (PendulumSystem.init.createPendulum invalidParams).2
      = Except.error (PyError.attributeError "PathTracer" "initialize") ∧
    (PendulumSystem.init.createPendulum PendulumParams.default).2
      = Except.error (PyError.attributeError "PathTracer" "initialize") ∧
    (PendulumSystem.init.createPendulum invalidParams).1.pendulums = [] ∧
    (PendulumSystem.init.createPendulum invalidParams).1.next_id = 1 :=
  ⟨rfl, by norm_num [invalidParams], rfl, rfl, rfl, rfl⟩

/-- Length, after a bounded deque append. -/
theorem dequeAppend_length {β : Type*} (m : ℕ) (l : List β) (b : β) :
    (dequeAppend m l b).length = min m (l.length + 1) := by
  simp only [dequeAppend, List.length_drop, List.length_append,
    List.length_singleton]
  omega

/-- Membership after a bounded deque append. -/
theorem mem_dequeAppend {β : Type*} {m : ℕ} {l : List β} {b x : β}
    (h : x ∈ dequeAppend m l b) : x ∈ l ∨ x = b := by
  have h' : x ∈ l ++ [b] := List.drop_subset _ _ h
  simpa using h'

/-- Every `PathTracer` entry point preserves the buffer well-formedness. -/
theorem apply_good {α : Type*} {n : ℕ} {tr : PathTracer α}
    (h : tr.Good n) (op : PTOp α) : (PTOp.apply tr op).Good n := by
  obtain ⟨hfade, hmax, hlen, hmem⟩ := h
  have hnew : ∀ (x y : α) (c : Color),
      (dequeAppend tr.maxlen tr.points ⟨x, y, c, 255⟩).length ≤ n ∧
      ∀ pt ∈ dequeAppend tr.maxlen tr.points ⟨x, y, c, 255⟩,
        0 ≤ pt.alpha ∧ pt.alpha ≤ 255 := by
    intro x y c
    constructor
    · rw [dequeAppend_length, ← hmax]
      exact Nat.min_le_left _ _
    · intro pt hpt
      rcases mem_dequeAppend hpt with hin | rfl
      · exact hmem pt hin
      · exact ⟨by norm_num, by norm_num⟩
  cases op with
  | addPoint x y =>
    simp only [PTOp.apply, PathTracer.add_point]
    split
    · exact ⟨hfade, hmax, hlen, hmem⟩
    · split
      · exact ⟨hfade, hmax, (hnew x y _).1, (hnew x y _).2⟩
      · exact ⟨hfade, hmax, (hnew x y _).1, (hnew x y _).2⟩
  | decay =>
    simp only [PTOp.apply, PathTracer.update]
    split
    · exact ⟨hfade, hmax, hlen, hmem⟩
    · refine ⟨hfade, hmax, ?_, ?_⟩
      · calc (List.filter _ (List.map _ tr.points)).length
            ≤ (List.map _ tr.points).length := List.length_filter_le _ _
          _ = tr.points.length := List.length_map _ _
          _ ≤ n := hlen
      · intro pt hpt
        have h1 := List.mem_of_mem_filter hpt
        obtain ⟨pt0, hpt0, rfl⟩ := List.mem_map.1 h1
        obtain ⟨ha0, ha255⟩ := hmem pt0 hpt0
        refine ⟨le_max_right _ _, ?_⟩
        have hx : (0 : ℚ) ≤ (pt0.alpha : ℚ) * tr.fade_rate :=
          mul_nonneg (by exact_mod_cast ha0) (by norm_num [hfade])
        have hfloor : pyInt ((pt0.alpha : ℚ) * tr.fade_rate) ≤ 255 := by
          rw [pyInt, if_pos hx]
          have hle : (pt0.alpha : ℚ) * tr.fade_rate ≤ 255 := by
            rw [hfade]
            have : (pt0.alpha : ℚ) ≤ 255 := by exact_mod_cast ha255
            nlinarith
          calc ⌊(pt0.alpha : ℚ) * tr.fade_rate⌋ ≤ ⌊(255 : ℚ)⌋ :=
              Int.floor_mono hle
            _ = 255 := by norm_num
        exact max_le hfloor (by norm_num)
  | clear =>
    exact ⟨hfade, hmax, by simp [PTOp.apply, PathTracer.clear],
      by simp [PTOp.apply, PathTracer.clear]⟩
  | setEnabled b =>
    simp only [PTOp.apply, PathTracer.set_enabled]
    split
    · exact ⟨hfade, hmax, by simp [PathTracer.clear],
        by simp [PathTracer.clear]⟩
    · exact ⟨hfade, hmax, hlen, hmem⟩
  | setColor c => exact ⟨hfade, hmax, hlen, hmem⟩
  | toggleRainbow => exact ⟨hfade, hmax, hlen, hmem⟩

/-- Well-formedness of the freshly constructed tracer. -/
theorem init_good {α : Type*} (n : ℕ) : (PathTracer.init α n).Good n :=
  ⟨rfl, rfl, by simp [PathTracer.init], by simp [PathTracer.init]⟩

/-- Running any operation sequence preserves the buffer well-formedness. -/
theorem run_good {α : Type*} {n : ℕ} (ops : List (PTOp α))
    {tr : PathTracer α} (h : tr.Good n) : (PTOp.run tr ops).Good n := by
  induction ops generalizing tr with
  | nil => exact h
  | cons op ops ih => exact ih (apply_good h op)

/-- C9: starting from a fresh tracer of any capacity, any sequence of
operations keeps the stored point count at or below the capacity and every
stored opacity within [0, 255]; an append to a full buffer evicts exactly
the oldest point (FIFO) and stores the new point with opacity 255; and
decay maps each point's opacity through multiplication by the fade rate
with truncation (clamped at 0), removing exactly the points whose result is
at or below the minimum threshold. -/
theorem pathBuffer_invariants :
    (∀ (n : ℕ) (ops : List (PTOp ℚ)),
      (PTOp.run (PathTracer.init ℚ n) ops).points.length ≤ n ∧
      ∀ pt ∈ (PTOp.run (PathTracer.init ℚ n) ops).points,
        0 ≤ pt.alpha ∧ pt.alpha ≤ 255) ∧
    (∀ (tr : PathTracer ℚ) (x y : ℚ), tr.enabled = true →
      tr.points.length = tr.maxlen → 1 ≤ tr.maxlen →
      ∃ c, (tr.add_point x y).points
        = tr.points.drop 1 ++ [⟨x, y, c, 255⟩]) ∧
    (∀ tr : PathTracer ℚ, tr.update.points
      = (tr.points.map (fun pt =>
          { pt with alpha := max (pyInt ((pt.alpha : ℚ) * tr.fade_rate)) 0 })).filter
        (fun pt => tr.min_alpha < pt.alpha)) := by
  refine ⟨?_, ?_, ?_⟩
  · intro n ops
    have h := run_good ops (init_good (α := ℚ) n)
    exact ⟨h.2.2.1, h.2.2.2⟩
  · intro tr x y he hfull hcap
    have hdeq : ∀ c : Color,
        dequeAppend tr.maxlen tr.points ⟨x, y, c, 255⟩
          = tr.points.drop 1 ++ [⟨x, y, c, 255⟩] := by
      intro c
      have hlen1 : 1 ≤ tr.points.length := hfull ▸ hcap
      simp only [dequeAppend, List.length_append, List.length_singleton]
      rw [show tr.points.length + 1 - tr.maxlen = 1 by omega,
        List.drop_append_of_le_length hlen1]
    simp only [PathTracer.add_point, he, Bool.not_true, Bool.false_eq_true,
      if_false]
    split
    · exact ⟨hsv_to_rgb255 tr.current_hue, hdeq _⟩
    · exact ⟨tr.color, hdeq _⟩
  · intro tr
    simp only [PathTracer.update]
    split
    · rename_i hempty
      rw [List.isEmpty_iff] at hempty
      simp [hempty]
    · rfl

/-- Witness for C9 at a concrete capacity-2 buffer holding two points. -/
theorem pathBuffer_invariants_witness :
    (trW.enabled = true ∧ trW.points.length = trW.maxlen ∧ 1 ≤ trW.maxlen) ∧
    ∃ c, (trW.add_point 2 2).points
      = trW.points.drop 1 ++ [⟨2, 2, c, 255⟩] :=
  ⟨⟨by decide, by decide, by decide⟩,
    pathBuffer_invariants.2.1 trW 2 2 (by decide) (by decide) (by decide)⟩

/-- C3: for a pendulum with positive masses and lengths whose drag state is
Idle, one integrator call computes the accelerations exactly per the §4.1
formulas (`specAcc`), updates the velocities first from the old state, then
the angles from the just-updated velocities; in particular from rest
(ω1 = ω2 = 0) one step yields ω1 = acc1·dt and ω2 = acc2·dt. -/
theorem integrator_matches_spec (p : Pendulum) (dt g : ℝ)
    (hm1 : 0 < p.mass1) (hm2 : 0 < p.mass2)
    (hl1 : 0 < p.length1) (hl2 : 0 < p.length2)
    (hidle : p.draggingBob = 0) :
    (p.update dt g).1.vel1 = p.vel1 + (p.specAccOf g).1 * dt ∧
    (p.update dt g).1.vel2 = p.vel2 + (p.specAccOf g).2 * dt ∧
    (p.update dt g).1.angle1
      = p.angle1 + (p.vel1 + (p.specAccOf g).1 * dt) * dt ∧
    (p.update dt g).1.angle2
      = p.angle2 + (p.vel2 + (p.specAccOf g).2 * dt) * dt ∧
    (p.vel1 = 0 → p.vel2 = 0 →
      (p.update dt g).1.vel1 = (p.specAccOf g).1 * dt ∧
      (p.update dt g).1.vel2 = (p.specAccOf g).2 * dt) := by
  have hstate : (p.update dt g).1 = { p with
      vel1 := p.vel1 + (p.specAccOf g).1 * dt
      vel2 := p.vel2 + (p.specAccOf g).2 * dt
      angle1 := p.angle1 + (p.vel1 + (p.specAccOf g).1 * dt) * dt
      angle2 := p.angle2 + (p.vel2 + (p.specAccOf g).2 * dt) * dt } := by
    rcases hpt : p.pathTracer with _ | tr <;>
      simp [Pendulum.update, hidle, hpt, Pendulum.specAccOf, specAcc]
  refine ⟨by rw [hstate], by rw [hstate], by rw [hstate], by rw [hstate],
    fun hv1 hv2 => ⟨by rw [hstate]; simp [hv1], by rw [hstate]; simp [hv2]⟩⟩

/-- Witness for C3: the spec's reference state θ1 = θ2 = π/4 at rest with
L1 = L2 = 120, m1 = m2 = 10, one step of dt = 1/240 under g = 9.81. -/
theorem integrator_matches_spec_witness :
    (0 < p3.mass1 ∧ 0 < p3.mass2 ∧ 0 < p3.length1 ∧ 0 < p3.length2 ∧
      p3.draggingBob = 0 ∧ p3.vel1 = 0 ∧ p3.vel2 = 0) ∧
    ((p3.update (1/240) 9.81).1.vel1 = (p3.specAccOf 9.81).1 * (1/240) ∧
     (p3.update (1/240) 9.81).1.vel2 = (p3.specAccOf 9.81).2 * (1/240)) := by
  have h1 : (0:ℝ) < p3.mass1 := by norm_num [p3, Pendulum.default]
  have h2 : (0:ℝ) < p3.mass2 := by norm_num [p3, Pendulum.default]
  have h3 : (0:ℝ) < p3.length1 := by norm_num [p3, Pendulum.default]
  have h4 : (0:ℝ) < p3.length2 := by norm_num [p3, Pendulum.default]
  have h5 : p3.draggingBob = 0 := rfl
  have h6 : p3.vel1 = 0 := rfl
  have h7 : p3.vel2 = 0 := rfl
  exact ⟨⟨h1, h2, h3, h4, h5, h6, h7⟩,
    (integrator_matches_spec p3 (1/240) 9.81 h1 h2 h3 h4 h5).2.2.2.2 h6 h7⟩

/-- C10: for every non-dragging pendulum owning a path tracer, one physics
step raises `AttributeError` at the trail-append call (`PathTracer` defines
`add_point`, not the `addPoint` method that `Pendulum.update` invokes), and
only after the velocities and angles have been mutated for that step; the
tracer itself is unchanged — no trail point is appended — so the step is
not atomic. -/
theorem update_trailAppend_raises (p : Pendulum) (dt g : ℝ)
    (hidle : p.draggingBob = 0) (htr : p.pathTracer.isSome = true) :
    (p.update dt g).2
      = some (PyError.attributeError "PathTracer" "addPoint") ∧
    (p.update dt g).1.pathTracer = p.pathTracer ∧
    (p.update dt g).1.vel1 = p.vel1 + (p.specAccOf g).1 * dt ∧
    (p.update dt g).1.vel2 = p.vel2 + (p.specAccOf g).2 * dt ∧
    (p.update dt g).1.angle1
      = p.angle1 + ((p.update dt g).1.vel1) * dt ∧
    (p.update dt g).1.angle2
      = p.angle2 + ((p.update dt g).1.vel2) * dt ∧
    "addPoint" ∉ PathTracer.methods ∧ "add_point" ∈ PathTracer.methods := by
  rcases hpt : p.pathTracer with _ | tr
  · rw [hpt] at htr; simp at htr
  · refine ⟨?_, ?_, ?_, ?_, ?_, ?_, by decide, by decide⟩ <;>
      simp [Pendulum.update, hidle, hpt, Pendulum.specAccOf, specAcc]

/-- Witness for C10: a default pendulum that owns a tracer, dt = 1/240,
g = 9.8. -/
theorem update_trailAppend_raises_witness :
    (p10.draggingBob = 0 ∧ p10.pathTracer.isSome = true) ∧
    ((p10.update (1/240) 9.8).2
        = some (PyError.attributeError "PathTracer" "addPoint") ∧
      (p10.update (1/240) 9.8).1.pathTracer = p10.pathTracer) := by
  have h1 : p10.draggingBob = 0 := rfl
  have h2 : p10.pathTracer.isSome = true := rfl
  have h := update_trailAppend_raises p10 (1/240) 9.8 h1 h2
  exact ⟨⟨h1, h2⟩, h.1, h.2.1⟩

/-- On a paused system the step loop drains the accumulator by whole fixed
steps without touching the system: the closed form of the `while` loop. -/
theorem engineSteps_paused (m : ℚ) (hm : 0 < m) (sys : PendulumSystem)
    (hp : sys.paused = true) :
    ∀ (fuel : ℕ) (acc : ℚ), (⌊acc / m⌋).toNat ≤ fuel →
      engineSteps m fuel acc sys
        = (acc - ((⌊acc / m⌋).toNat : ℚ) * m, sys, (⌊acc / m⌋).toNat, none) := by
  intro fuel
  induction fuel with
  | zero =>
    intro acc hle
    have h0 : (⌊acc / m⌋).toNat = 0 := Nat.le_zero.1 hle
    simp [engineSteps, h0]
  | succ fuel ih =>
    intro acc hle
    by_cases hge : m ≤ acc
    · have hupd : sys.update (m : ℝ) = (sys, none) := by
        simp [PendulumSystem.update, hp]
      have hfl1 : 1 ≤ ⌊acc / m⌋ := by
        rw [Int.le_floor]; push_cast; exact (one_le_div hm).2 hge
      have hsub : ⌊(acc - m) / m⌋ = ⌊acc / m⌋ - 1 := by
        rw [show (acc - m) / m = acc / m - 1 by field_simp, Int.floor_sub_one]
      have hrec := ih (acc - m) (by rw [hsub]; omega)
      rw [hsub] at hrec
      have hnat : ((⌊acc / m⌋ - 1).toNat : ℚ) = (⌊acc / m⌋.toNat : ℚ) - 1 := by
        have h1 : (⌊acc / m⌋ - 1).toNat = ⌊acc / m⌋.toNat - 1 := by omega
        have h2 : 1 ≤ ⌊acc / m⌋.toNat := by omega
        rw [h1, Nat.cast_sub h2, Nat.cast_one]
      have hcnt : (⌊acc / m⌋ - 1).toNat + 1 = ⌊acc / m⌋.toNat := by omega
      have hQ : acc - m - ((⌊acc / m⌋ - 1).toNat : ℚ) * m
          = acc - (⌊acc / m⌋.toNat : ℚ) * m := by rw [hnat]; ring
      simp only [engineSteps, if_pos hge, hupd, hrec, hcnt, hQ]
    · have h0 : (⌊acc / m⌋).toNat = 0 := by
        have hlt : ⌊acc / m⌋ < 1 := by
          rw [Int.floor_lt]; push_cast; exact (div_lt_one hm).2 (not_le.1 hge)
        omega
      simp [engineSteps, if_neg hge, h0]

/-- Closed form of `PhysicsEngine.update` on a paused system: the clamped
delta is accumulated and drained regardless of the pause flag, while the
system itself never changes. -/
theorem engineUpdate_paused (e : PhysicsEngine) (delta : ℚ)
    (hp : e.system.paused = true) (hm : 0 < e.min_step) :
    (e.update delta).1.system = e.system ∧
    (e.update delta).1.accumulated_time
      = e.accumulated_time + (if delta > 1/10 then 1/10 else delta)
        - (((⌊(e.accumulated_time + (if delta > 1/10 then 1/10 else delta))
            / e.min_step⌋).toNat : ℚ)) * e.min_step ∧
    (e.update delta).2.1
      = (⌊(e.accumulated_time + (if delta > 1/10 then 1/10 else delta))
          / e.min_step⌋).toNat ∧
    (e.update delta).2.2 = none ∧
    (0 ≤ delta → 0 ≤ e.accumulated_time →
      0 ≤ (e.update delta).1.accumulated_time ∧
      (e.update delta).1.accumulated_time < e.min_step) := by
  set d := if delta > 1/10 then 1/10 else delta with hd
  set acc := e.accumulated_time + d with hacc'
  have hrun := engineSteps_paused e.min_step hm e.system hp
    ((⌊acc / e.min_step⌋).toNat + 1) acc (by omega)
  have hupdate : e.update delta
      = ({ e with
            accumulated_time := acc - ((⌊acc / e.min_step⌋).toNat : ℚ) * e.min_step
            system := e.system },
          (⌊acc / e.min_step⌋).toNat, none) := by
    simp only [PhysicsEngine.update, ← hd, ← hacc', hrun]
  refine ⟨by rw [hupdate], by rw [hupdate], by rw [hupdate], by rw [hupdate], ?_⟩
  intro hdel hacc
  have hd0 : 0 ≤ d := by
    rw [hd]; split <;> [norm_num; exact hdel]
  have hacc0 : 0 ≤ acc := by positivity
  have hfl : 0 ≤ ⌊acc / e.min_step⌋ := Int.floor_nonneg.2 (by positivity)
  have hcast : ((⌊acc / e.min_step⌋.toNat : ℚ)) = (⌊acc / e.min_step⌋ : ℚ) := by
    exact_mod_cast congrArg (fun z : ℤ => (z : ℚ)) (Int.toNat_of_nonneg hfl)
  constructor
  · rw [hupdate]
    simp only [hcast]
    have h1 : (⌊acc / e.min_step⌋ : ℚ) ≤ acc / e.min_step := Int.floor_le _
    rw [sub_nonneg]
    calc (⌊acc / e.min_step⌋ : ℚ) * e.min_step
        ≤ (acc / e.min_step) * e.min_step := by
          exact mul_le_mul_of_nonneg_right h1 hm.le
      _ = acc := by field_simp
  · rw [hupdate]
    simp only [hcast]
    have h2 : acc / e.min_step < ⌊acc / e.min_step⌋ + 1 := Int.lt_floor_add_one _
    have h3 : acc < (⌊acc / e.min_step⌋ + 1 : ℚ) * e.min_step := by
      calc acc = (acc / e.min_step) * e.min_step := by field_simp
        _ < (⌊acc / e.min_step⌋ + 1 : ℚ) * e.min_step := by
            exact mul_lt_mul_of_pos_right (by push_cast at h2 ⊢; linarith) hm
    have := h3
    push_cast at this ⊢
    linarith [this]

/-- C7 (amended): `update` clamps the frame delta at the 0.1 s cap, but the
pause flag does not stop the clock: the clamped (unscaled) delta is added to
the accumulator and fixed steps are instructed regardless of pause — each
instructed step merely does nothing inside the paused system. The loop
consumes one fixed step at a time until the accumulator is below one step,
the remainder carrying over. -/
theorem advance_accumulates_even_when_paused (e : PhysicsEngine) (delta : ℚ)
    (hp : e.system.paused = true) (hstep : e.min_step = 1/240)
    (hacc : 0 ≤ e.accumulated_time) :
    (e.update delta).1.system = e.system ∧
    (e.update delta).1.accumulated_time
      = e.accumulated_time + (if delta > 1/10 then 1/10 else delta)
        - (((⌊(e.accumulated_time + (if delta > 1/10 then 1/10 else delta))
            / e.min_step⌋).toNat : ℚ)) * e.min_step ∧
    (e.update delta).2.1
      = (⌊(e.accumulated_time + (if delta > 1/10 then 1/10 else delta))
          / e.min_step⌋).toNat ∧
    (e.update delta).2.2 = none ∧
    (0 ≤ delta →
      0 ≤ (e.update delta).1.accumulated_time ∧
      (e.update delta).1.accumulated_time < e.min_step) := by
  have h := engineUpdate_paused e delta hp (by rw [hstep]; norm_num)
  exact ⟨h.1, h.2.1, h.2.2.1, h.2.2.2.1, fun hdel => h.2.2.2.2 hdel hacc⟩

/-- Witness for C7 at the concrete paused engine `eP` and a 0.03 s frame. -/
theorem advance_accumulates_even_when_paused_witness :
    (eP.system.paused = true ∧ eP.min_step = 1/240 ∧
      0 ≤ eP.accumulated_time) ∧
    ((eP.update (3/100)).1.system = eP.system ∧
      (eP.update (3/100)).2.2 = none) := by
  have h1 : eP.system.paused = true := rfl
  have h2 : eP.min_step = 1/240 := rfl
  have h3 : (0:ℚ) ≤ eP.accumulated_time := le_refl 0
  have h := advance_accumulates_even_when_paused eP (3/100) h1 h2 h3
  exact ⟨⟨h1, h2, h3⟩, h.1, h.2.2.2.1⟩

/-- C7 counterexample: on the paused engine `eP` (accumulator 0) a 0.03 s
frame leaves the accumulator changed (to 1/1200) and instructs 7 fixed
steps, while the claim says a paused advance performs no accumulation and
instructs zero steps. -/
theorem paused_advance_counterexample :
    eP.system.paused = true ∧
    (eP.update (3/100)).1.accumulated_time = 1/1200 ∧
    (eP.update (3/100)).1.accumulated_time ≠ eP.accumulated_time ∧
    (eP.update (3/100)).2.1 = 7 := by
  have h := engineUpdate_paused eP (3/100) rfl (by norm_num [eP])
  have h7 : (7 : ℤ).toNat = 7 := rfl
  have hacc : (eP.update (3/100)).1.accumulated_time = 1/1200 := by
    rw [h.2.1]
    norm_num [eP, h7]
  have hsteps : (eP.update (3/100)).2.1 = 7 := by
    rw [h.2.2.1]
    norm_num [eP, h7]
  exact ⟨rfl, hacc, by rw [hacc]; norm_num [eP], hsteps⟩

/-- A pendulum that owns no tracer steps without raising. -/
theorem update_err_none (p : Pendulum) (dt g : ℝ)
    (h : p.pathTracer = none) : (p.update dt g).2 = none := by
  by_cases hd : p.draggingBob > 0
  · simp [Pendulum.update, hd]
  · simp [Pendulum.update, hd, h]

/-- Error-free sequential stepping of a tracer-free pendulum list is a map. -/
theorem updateEach_map (dt g : ℝ) (l : List Pendulum)
    (h : ∀ p ∈ l, p.pathTracer = none) :
    updateEach dt g l = (stepAll dt g l, none) := by
  induction l with
  | nil => rfl
  | cons p rest ih =>
    have herr := update_err_none p dt g (h p (by simp))
    rcases hu : p.update dt g with ⟨p', e⟩
    cases e with
    | some ex => rw [hu] at herr; simp at herr
    | none =>
      have ihr := ih (fun q hq => h q (by simp [hq]))
      simp [updateEach, hu, ihr, stepAll]

/-- `PendulumSystem.update` on an unpaused, tracer-free system advances
every pendulum with the scaled step `deltaTime * time_scale`. -/
theorem sysUpdate_unpaused (sys : PendulumSystem) (dt : ℝ)
    (hp : sys.paused = false)
    (h : ∀ p ∈ sys.pendulums, p.pathTracer = none) :
    sys.update dt
      = ({ sys with
            pendulums := stepAll (dt * sys.time_scale) sys.gravity sys.pendulums },
         none) := by
  simp only [PendulumSystem.update, hp, Bool.false_eq_true, if_false,
    updateEach_map _ _ _ h]

/-- The step loop stops as soon as the accumulator is below one step. -/
theorem engineSteps_stop (m : ℚ) (fuel : ℕ) (acc : ℚ) (sys : PendulumSystem)
    (h : ¬ m ≤ acc) : engineSteps m fuel acc sys = (acc, sys, 0, none) := by
  cases fuel <;> simp [engineSteps, h]

/-- One error-free iteration of the step loop. -/
theorem engineSteps_step (m : ℚ) (fuel : ℕ) (acc : ℚ)
    (sys sys' : PendulumSystem) (h : m ≤ acc)
    (hupd : sys.update (m : ℝ) = (sys', none)) :
    engineSteps m (fuel + 1) acc sys
      = ((engineSteps m fuel (acc - m) sys').1,
         (engineSteps m fuel (acc - m) sys').2.1,
         (engineSteps m fuel (acc - m) sys').2.2.1 + 1,
         (engineSteps m fuel (acc - m) sys').2.2.2) := by
  simp [engineSteps, h, hupd]

/-- An engine frame that drains exactly one fixed step advances the physics
of an unpaused, tracer-free system with dt = `min_step * time_scale`. -/
theorem engine_single_step (e : PhysicsEngine) (delta : ℚ)
    (hp : e.system.paused = false)
    (h : ∀ p ∈ e.system.pendulums, p.pathTracer = none)
    (hm : 0 < e.min_step)
    (hlow : e.min_step
      ≤ e.accumulated_time + (if delta > 1/10 then 1/10 else delta))
    (hhigh : e.accumulated_time + (if delta > 1/10 then 1/10 else delta)
      < 2 * e.min_step) :
    (e.update delta).1.system.pendulums
      = stepAll ((e.min_step : ℝ) * e.system.time_scale) e.system.gravity
          e.system.pendulums ∧
    (e.update delta).2.1 = 1 ∧
    (e.update delta).2.2 = none := by
  set d := if delta > 1/10 then 1/10 else delta with hd
  set acc := e.accumulated_time + d with hacc
  have hfl : ⌊acc / e.min_step⌋ = 1 := by
    rw [Int.floor_eq_iff]
    push_cast
    exact ⟨(one_le_div hm).2 hlow, by rw [div_lt_iff hm]; linarith⟩
  have hsys := sysUpdate_unpaused e.system (e.min_step : ℝ) hp h
  have hcond2 : ¬ e.min_step ≤ acc - e.min_step := by
    intro hc; linarith
  have hupdate : e.update delta
      = ({ e with
            accumulated_time := acc - e.min_step
            system := { e.system with
              pendulums := stepAll ((e.min_step : ℝ) * e.system.time_scale)
                e.system.gravity e.system.pendulums } }, 1, none) := by
    simp only [PhysicsEngine.update, ← hd, ← hacc, hfl,
      show (1:ℤ).toNat = 1 from rfl,
      engineSteps_step e.min_step 1 acc e.system _ hlow hsys,
      engineSteps_stop e.min_step 1 (acc - e.min_step) _ hcond2]
  rw [hupdate]
  exact ⟨rfl, rfl, rfl⟩

/-- C6 (amended): the time-scale factor multiplies the dt handed to the
integrator, not the accumulated delta: `PendulumSystem.update(dt)` advances
every pendulum with `dt * time_scale`, so although the engine does pass the
constant `min_step` into the system on every drained step (and drains the
accumulator in unscaled `min_step` units), each integration step runs with
dt = `min_step * time_scale`, which changes with the time scale. -/
theorem timeScale_scales_integrator_dt :
    (∀ (sys : PendulumSystem) (dt : ℝ), sys.paused = false →
      (∀ p ∈ sys.pendulums, p.pathTracer = none) →
      (sys.update dt).1.pendulums
        = stepAll (dt * sys.time_scale) sys.gravity sys.pendulums ∧
      (sys.update dt).2 = none) ∧
    (∀ (e : PhysicsEngine) (delta : ℚ), e.system.paused = false →
      (∀ p ∈ e.system.pendulums, p.pathTracer = none) →
      0 < e.min_step →
      e.min_step
        ≤ e.accumulated_time + (if delta > 1/10 then 1/10 else delta) →
      e.accumulated_time + (if delta > 1/10 then 1/10 else delta)
        < 2 * e.min_step →
      (e.update delta).1.system.pendulums
        = stepAll ((e.min_step : ℝ) * e.system.time_scale) e.system.gravity
            e.system.pendulums) := by
  constructor
  · intro sys dt hp h
    rw [sysUpdate_unpaused sys dt hp h]
    exact ⟨rfl, rfl⟩
  · intro e delta hp h hm hlow hhigh
    exact (engine_single_step e delta hp h hm hlow hhigh).1

/-- Witness for C6 at the concrete engine `e6` (time scale 2) and a frame
delta of exactly one fixed step. -/
theorem timeScale_scales_integrator_dt_witness :
    (e6.system.paused = false ∧
      (∀ p ∈ e6.system.pendulums, p.pathTracer = none) ∧
      0 < e6.min_step ∧
      e6.min_step
        ≤ e6.accumulated_time + (if (1/240 : ℚ) > 1/10 then 1/10 else 1/240) ∧
      e6.accumulated_time + (if (1/240 : ℚ) > 1/10 then 1/10 else 1/240)
        < 2 * e6.min_step) ∧
    (e6.update (1/240)).1.system.pendulums
      = stepAll ((e6.min_step : ℝ) * e6.system.time_scale) e6.system.gravity
          e6.system.pendulums := by
  have h1 : e6.system.paused = false := rfl
  have h2 : ∀ p ∈ e6.system.pendulums, p.pathTracer = none := by
    intro p hp
    have : p = p6 := by simpa [e6, sys6] using hp
    rw [this]; rfl
  have h3 : (0:ℚ) < e6.min_step := by norm_num [e6]
  have h4 : e6.min_step
      ≤ e6.accumulated_time + (if (1/240 : ℚ) > 1/10 then 1/10 else 1/240) := by
    norm_num [e6]
  have h5 : e6.accumulated_time + (if (1/240 : ℚ) > 1/10 then 1/10 else 1/240)
      < 2 * e6.min_step := by
    norm_num [e6]
  exact ⟨⟨h1, h2, h3, h4, h5⟩,
    timeScale_scales_integrator_dt.2 e6 (1/240) h1 h2 h3 h4 h5⟩

/-- One integrator step on `p6` leaves `vel2 = 1 + dt/200`. -/
theorem p6_update_vel2 (d : ℝ) : (p6.update d 9.8).1.vel2 = 1 + d / 200 := by
  have h0 : ¬ p6.draggingBob > 0 := by simp [p6, Pendulum.default]
  simp only [Pendulum.update, h0, if_false, p6, Pendulum.default]
  norm_num
  ring

/-- C6 counterexample: on `e6` (time scale 2) one engine frame of 1/240 s
drains exactly one fixed step but advances the pendulum with dt = 1/120: the
resulting outer velocity is 1 + 1/24000, while an invocation of the
integrator with the fixed step 1/240 itself yields 1 + 1/48000 — so the
advance the engine performs per fixed step is not the fixed-step advance. -/
theorem fixedStep_counterexample :
    (e6.update (1/240)).1.system.pendulums.map Pendulum.vel2
      = [1 + 1/24000] ∧
    (p6.update (1/240) sys6.gravity).1.vel2 = 1 + 1/48000 ∧
    ((1 : ℝ) + 1/24000) ≠ 1 + 1/48000 := by
  have h2 : ∀ p ∈ e6.system.pendulums, p.pathTracer = none := by
    intro p hp
    have : p = p6 := by simpa [e6, sys6] using hp
    rw [this]; rfl
  have hs := engine_single_step e6 (1/240) rfl h2 (by norm_num [e6])
    (by norm_num [e6]) (by norm_num [e6])
  refine ⟨?_, ?_, by norm_num⟩
  · rw [hs.1]
    have hdt : ((e6.min_step : ℝ)) * e6.system.time_scale = 1/120 := by
      norm_num [e6, sys6]
    have hg : e6.system.gravity = 9.8 := rfl
    rw [show e6.system.pendulums = [p6] from rfl]
    simp only [stepAll, List.map_cons, List.map_nil, hdt, hg]
    rw [p6_update_vel2]
    norm_num
  · have hg : sys6.gravity = 9.8 := rfl
    rw [hg, p6_update_vel2]
    norm_num

/-- Outer-bob hit: `startDrag` grabs the outer bob and changes nothing else. -/
theorem startDrag_hit_outer (p : Pendulum) (pos : ℝ × ℝ)
    (h : p.distToBob2 pos ≤ p.bobRadius2) :
    p.startDrag pos = ({ p with draggingBob := 2 }, true) := by
  simp [Pendulum.startDrag, h]

/-- Inner-bob hit after an outer miss: `startDrag` grabs the inner bob. -/
theorem startDrag_hit_inner (p : Pendulum) (pos : ℝ × ℝ)
    (h2 : ¬ p.distToBob2 pos ≤ p.bobRadius2)
    (h1 : p.distToBob1 pos ≤ p.bobRadius1) :
    p.startDrag pos = ({ p with draggingBob := 1 }, true) := by
  simp [Pendulum.startDrag, h1, h2]

/-- Both bobs missed: `startDrag` changes nothing and reports no grab. -/
theorem startDrag_miss (p : Pendulum) (pos : ℝ × ℝ)
    (h2 : ¬ p.distToBob2 pos ≤ p.bobRadius2)
    (h1 : ¬ p.distToBob1 pos ≤ p.bobRadius1) :
    p.startDrag pos = (p, false) := by
  simp [Pendulum.startDrag, h1, h2]

/-- `startDrag` fails exactly when both hit tests fail. -/
theorem startDrag_false_iff (p : Pendulum) (pos : ℝ × ℝ) :
    (p.startDrag pos).2 = false ↔
      ¬ p.distToBob2 pos ≤ p.bobRadius2 ∧
      ¬ p.distToBob1 pos ≤ p.bobRadius1 := by
  by_cases h2 : p.distToBob2 pos ≤ p.bobRadius2
  · simp [startDrag_hit_outer p pos h2, h2]
  · by_cases h1 : p.distToBob1 pos ≤ p.bobRadius1
    · simp [startDrag_hit_inner p pos h2 h1, h2, h1]
    · simp [startDrag_miss p pos h2 h1, h2, h1]

/-- A failed `startDrag` leaves the pendulum untouched. -/
theorem startDrag_false_eq (p : Pendulum) (pos : ℝ × ℝ)
    (h : (p.startDrag pos).2 = false) : (p.startDrag pos).1 = p := by
  obtain ⟨h2, h1⟩ := (startDrag_false_iff p pos).1 h
  rw [startDrag_miss p pos h2 h1]

/-- A successful `startDrag` leaves the pendulum in a non-Idle drag state. -/
theorem startDrag_true_dragging (p : Pendulum) (pos : ℝ × ℝ)
    (h : (p.startDrag pos).2 = true) :
    (p.startDrag pos).1.draggingBob ≠ 0 := by
  by_cases h2 : p.distToBob2 pos ≤ p.bobRadius2
  · rw [startDrag_hit_outer p pos h2]; simp
  · by_cases h1 : p.distToBob1 pos ≤ p.bobRadius1
    · rw [startDrag_hit_inner p pos h2 h1]; simp
    · rw [startDrag_miss p pos h2 h1] at h; simp at h

/-- The grab loop reports no hit exactly when every pendulum of the list
misses. -/
theorem grabAux_none_iff (pos : ℝ × ℝ) (l : List Pendulum) :
    (grabAux pos l).2 = none ↔ ∀ p ∈ l, (p.startDrag pos).2 = false := by
  induction l with
  | nil => simp [grabAux]
  | cons p rest ih =>
    rcases hu : p.startDrag pos with ⟨p', b⟩
    cases b
    · have hfalse : (p.startDrag pos).2 = false := by rw [hu]
      simp [grabAux, hu, List.forall_mem_cons, hfalse, ih]
    · have htrue : (p.startDrag pos).2 = true := by rw [hu]
      simp [grabAux, hu, List.forall_mem_cons, htrue]

/-- When the grab loop reports no hit, the list is unchanged. -/
theorem grabAux_none_fst (pos : ℝ × ℝ) (l : List Pendulum)
    (h : (grabAux pos l).2 = none) : (grabAux pos l).1 = l := by
  induction l with
  | nil => rfl
  | cons p rest ih =>
    rcases hu : p.startDrag pos with ⟨p', b⟩
    cases b
    · have hp' : p' = p := by
        have hfq := startDrag_false_eq p pos (by rw [hu])
        rw [hu] at hfq; exact hfq
      simp only [grabAux, hu] at h ⊢
      rw [ih h, hp']
    · simp [grabAux, hu] at h

/-- When the grab loop reports a hit, the list decomposes into an untested
prefix of misses, the grabbed pendulum (mutated by its own `startDrag`), and
an untouched tail. -/
theorem grabAux_some (pos : ℝ × ℝ) (l : List Pendulum) (i : ℤ)
    (h : (grabAux pos l).2 = some i) :
    ∃ X p Y, l = X ++ p :: Y ∧ (∀ q ∈ X, (q.startDrag pos).2 = false) ∧
      (p.startDrag pos).2 = true ∧
      (grabAux pos l).1 = X ++ (p.startDrag pos).1 :: Y := by
  induction l with
  | nil => simp [grabAux] at h
  | cons p rest ih =>
    rcases hu : p.startDrag pos with ⟨p', b⟩
    cases b
    · have hp' : p' = p := by
        have hfq := startDrag_false_eq p pos (by rw [hu])
        rw [hu] at hfq; exact hfq
      simp only [grabAux, hu] at h ⊢
      obtain ⟨X, q, Y, hl, hX, hq, hfst⟩ := ih h
      refine ⟨p :: X, q, Y, by rw [hl, List.cons_append], ?_, hq, ?_⟩
      · intro r hr
        rcases List.mem_cons.1 hr with rfl | hr
        · rw [hu]
        · exact hX r hr
      · simp only [List.cons_append, hfst, hp']
    · refine ⟨[], p, rest, rfl, by simp, by rw [hu], ?_⟩
      simp [grabAux, hu]

/-- C5 (amended): `handleMouseDown` does not release the prior drag owner.
Any pendulum the pointer misses — in particular one already dragging — stays
in the collection completely unchanged, keeping its non-Idle drag state; so
when the call grabs another pendulum, at least two pendulums are in a
non-Idle drag state afterwards (the claim's 'only B is non-Idle' fails; only
the `dragging_pendulum` routing reference moves to the new owner). -/
theorem pointerDown_does_not_release_prior_owner
    (sys : PendulumSystem) (pos : ℝ × ℝ) (A : Pendulum)
    (hA : A ∈ sys.pendulums) (hdrag : A.draggingBob ≠ 0)
    (hmiss : (A.startDrag pos).2 = false) :
    A ∈ (sys.handleMouseDown pos).1.pendulums ∧
    ((sys.handleMouseDown pos).2 = true →
      2 ≤ (sys.handleMouseDown pos).1.pendulums.countP
            (fun q => q.draggingBob != 0)) := by
  rcases hr : (grabAux pos sys.pendulums.reverse).2 with _ | i
  · have hfst := grabAux_none_fst pos sys.pendulums.reverse hr
    have heq : sys.handleMouseDown pos
        = ({ sys with
              pendulums := (grabAux pos sys.pendulums.reverse).1.reverse },
           false) := by
      simp [PendulumSystem.handleMouseDown, hr]
    rw [heq]
    constructor
    · simpa [hfst] using hA
    · intro htrue
      simp at htrue
  · obtain ⟨X, q, Y, hl, hX, hq, hfst⟩ :=
      grabAux_some pos sys.pendulums.reverse i hr
    have heq : sys.handleMouseDown pos
        = ({ sys with
              pendulums := (grabAux pos sys.pendulums.reverse).1.reverse
              dragging_pendulum := some i },
           true) := by
      simp [PendulumSystem.handleMouseDown, hr]
    have hArev : A ∈ sys.pendulums.reverse := List.mem_reverse.2 hA
    rw [hl] at hArev
    have hAXY : A ∈ X ∨ A ∈ Y := by
      rcases List.mem_append.1 hArev with h | h
      · exact Or.inl h
      · rcases List.mem_cons.1 h with rfl | h
        · rw [hmiss] at hq; cases hq
        · exact Or.inr h
    have hAmem : A ∈ (grabAux pos sys.pendulums.reverse).1 := by
      rw [hfst]
      rcases hAXY with h | h
      · exact List.mem_append.2 (Or.inl h)
      · exact List.mem_append.2 (Or.inr (List.mem_cons.2 (Or.inr h)))
    constructor
    · rw [heq]
      exact List.mem_reverse.2 hAmem
    · intro _
      rw [heq]
      have hpredq : ((q.startDrag pos).1.draggingBob != 0) = true := by
        simpa [bne_iff_ne] using startDrag_true_dragging q pos hq
      have hpredA : (fun q : Pendulum => q.draggingBob != 0) A = true := by
        simpa [bne_iff_ne] using hdrag
      have hother : 1 ≤ X.countP (fun q => q.draggingBob != 0)
          + Y.countP (fun q => q.draggingBob != 0) := by
        rcases hAXY with h | h
        · have : 0 < X.countP (fun q => q.draggingBob != 0) :=
            List.countP_pos_iff.2 ⟨A, h, hpredA⟩
          omega
        · have : 0 < Y.countP (fun q => q.draggingBob != 0) :=
            List.countP_pos_iff.2 ⟨A, h, hpredA⟩
          omega
      have hrw : ((grabAux pos sys.pendulums.reverse).1.reverse).countP
            (fun q => q.draggingBob != 0)
          = X.countP (fun q => q.draggingBob != 0)
            + Y.countP (fun q => q.draggingBob != 0) + 1 := by
        rw [List.countP_reverse, hfst, List.countP_append, List.countP_cons,
          hpredq]
        simp
        omega
      simp only [hrw]
      omega

/-- A square root exceeds a nonnegative bound whose square is below the
radicand. -/
theorem not_sqrt_le {a b : ℝ} (hb : 0 ≤ b) (h : b ^ 2 < a) :
    ¬ Real.sqrt a ≤ b := by
  have := (Real.lt_sqrt hb).2 h
  linarith

/-- Bob positions of a pendulum hanging straight down with 100-pixel arms:
(offsetX, offsetY + 100) and (offsetX, offsetY + 200). -/
theorem bob_eval (p : Pendulum) (h1 : p.angle1 = 0) (h2 : p.angle2 = 0)
    (hl1 : p.length1 = 100) (hl2 : p.length2 = 100) :
    p.bob1 = (p.offsetX, p.offsetY + 100) ∧
    p.bob2 = (p.offsetX, p.offsetY + 200) := by
  have hb1 : p.bob1 = (p.offsetX, p.offsetY + 100) := by
    simp only [Pendulum.bob1, h1, hl1, Real.sin_zero, Real.cos_zero,
      mul_zero, mul_one]
    norm_num [pyInt]
  refine ⟨hb1, ?_⟩
  simp only [Pendulum.bob2, hb1, h2, hl2, Real.sin_zero, Real.cos_zero,
    mul_zero, mul_one]
  norm_num [pyInt]
  ring

/-- Hit-test outcomes of pendulum A (anchor (0,0)) at the two probe points. -/
theorem pA_dists :
    pA.distToBob2 (0, 200) ≤ pA.bobRadius2 ∧
    ¬ pA.distToBob2 (500, 200) ≤ pA.bobRadius2 ∧
    ¬ pA.distToBob1 (500, 200) ≤ pA.bobRadius1 := by
  obtain ⟨hb1, hb2⟩ := bob_eval pA rfl rfl rfl rfl
  have hx : pA.offsetX = 0 := rfl
  have hy : pA.offsetY = 0 := rfl
  have hr1 : pA.bobRadius1 = 10 := rfl
  have hr2 : pA.bobRadius2 = 10 := rfl
  rw [hx, hy] at hb1 hb2
  refine ⟨?_, ?_, ?_⟩
  · norm_num [Pendulum.distToBob2, hb2, hr2, Real.sqrt_zero]
  · norm_num [Pendulum.distToBob2, hb2, hr2]
    exact (Real.lt_sqrt (by norm_num)).2 (by norm_num)
  · norm_num [Pendulum.distToBob1, hb1, hr1]
    exact (Real.lt_sqrt (by norm_num)).2 (by norm_num)

/-- Hit-test outcomes of pendulum B (anchor (500,0)) at the two probe
points. -/
theorem pB_dists :
    pB.distToBob2 (500, 200) ≤ pB.bobRadius2 ∧
    ¬ pB.distToBob2 (0, 200) ≤ pB.bobRadius2 ∧
    ¬ pB.distToBob1 (0, 200) ≤ pB.bobRadius1 := by
  obtain ⟨hb1, hb2⟩ := bob_eval pB rfl rfl rfl rfl
  have hx : pB.offsetX = 500 := rfl
  have hy : pB.offsetY = 0 := rfl
  have hr1 : pB.bobRadius1 = 10 := rfl
  have hr2 : pB.bobRadius2 = 10 := rfl
  rw [hx, hy] at hb1 hb2
  refine ⟨?_, ?_, ?_⟩
  · norm_num [Pendulum.distToBob2, hb2, hr2, Real.sqrt_zero]
  · norm_num [Pendulum.distToBob2, hb2, hr2]
    exact (Real.lt_sqrt (by norm_num)).2 (by norm_num)
  · norm_num [Pendulum.distToBob1, hb1, hr1]
    exact (Real.lt_sqrt (by norm_num)).2 (by norm_num)

/-- The dragged copy of A shares A's geometry, so it also misses the pointer
at B's outer bob. -/
theorem pAdrag_miss :
    ¬ pAdrag.distToBob2 (500, 200) ≤ pAdrag.bobRadius2 ∧
    ¬ pAdrag.distToBob1 (500, 200) ≤ pAdrag.bobRadius1 := by
  obtain ⟨hb1, hb2⟩ := bob_eval pAdrag rfl rfl rfl rfl
  have hx : pAdrag.offsetX = 0 := rfl
  have hy : pAdrag.offsetY = 0 := rfl
  have hr1 : pAdrag.bobRadius1 = 10 := rfl
  have hr2 : pAdrag.bobRadius2 = 10 := rfl
  rw [hx, hy] at hb1 hb2
  constructor
  · norm_num [Pendulum.distToBob2, hb2, hr2]
    exact (Real.lt_sqrt (by norm_num)).2 (by norm_num)
  · norm_num [Pendulum.distToBob1, hb1, hr1]
    exact (Real.lt_sqrt (by norm_num)).2 (by norm_num)

/-- Witness for C5: in `sysW5`, pendulum A is already dragging its outer bob
and the pointer at (500, 200) misses A (it hits B); A is retained unchanged
and, the grab succeeding, two pendulums end up non-Idle. -/
theorem pointerDown_does_not_release_prior_owner_witness :
    (pAdrag ∈ sysW5.pendulums ∧ pAdrag.draggingBob ≠ 0 ∧
      (pAdrag.startDrag (500, 200)).2 = false) ∧
    (pAdrag ∈ (sysW5.handleMouseDown (500, 200)).1.pendulums ∧
      ((sysW5.handleMouseDown (500, 200)).2 = true →
        2 ≤ (sysW5.handleMouseDown (500, 200)).1.pendulums.countP
              (fun q => q.draggingBob != 0))) := by
  have h1 : pAdrag ∈ sysW5.pendulums := List.mem_cons_self _ _
  have h2 : pAdrag.draggingBob ≠ 0 := by norm_num [pAdrag, pA]
  have h3 : (pAdrag.startDrag (500, 200)).2 = false := by
    rw [startDrag_miss pAdrag (500, 200) pAdrag_miss.1 pAdrag_miss.2]
  exact ⟨⟨h1, h2, h3⟩,
    pointerDown_does_not_release_prior_owner sysW5 (500, 200) pAdrag h1 h2 h3⟩

/-- C5 counterexample: grabbing A's outer bob and then B's outer bob leaves
BOTH pendulums in drag state 2 — the prior owner is never released, so
after the second `pointerDown` it is not the case that only B is non-Idle. -/
theorem singleDragOwner_counterexample :
    (sysAB.handleMouseDown (0, 200)).2 = true ∧
    ((sysAB.handleMouseDown (0, 200)).1.handleMouseDown (500, 200)).2
      = true ∧
    ((sysAB.handleMouseDown (0, 200)).1.handleMouseDown
        (500, 200)).1.pendulums.map Pendulum.draggingBob = [2, 2] := by
  have hB0 : pB.startDrag (0, 200) = (pB, false) :=
    startDrag_miss pB (0, 200) pB_dists.2.1 pB_dists.2.2
  have hA0 : pA.startDrag (0, 200) = (pAdrag, true) :=
    startDrag_hit_outer pA (0, 200) pA_dists.1
  have hBB : pB.startDrag (500, 200) = (pBdrag, true) :=
    startDrag_hit_outer pB (500, 200) pB_dists.1
  have hg1 : grabAux (0, 200) [pB, pA] = ([pB, pAdrag], some 0) := by
    simp only [grabAux, hB0, hA0]
    rfl
  have h1 : sysAB.handleMouseDown (0, 200) = (sysAB1, true) := by
    simp only [PendulumSystem.handleMouseDown,
      show sysAB.pendulums.reverse = [pB, pA] from rfl, hg1]
    rfl
  have hg2 : grabAux (500, 200) [pB, pAdrag] = ([pBdrag, pAdrag], some 1) := by
    simp only [grabAux, hBB]
    rfl
  have h2 : sysAB1.handleMouseDown (500, 200) = (sysAB2, true) := by
    simp only [PendulumSystem.handleMouseDown,
      show sysAB1.pendulums.reverse = [pB, pAdrag] from rfl, hg2]
    rfl
  simp only [h1, h2]
  exact ⟨trivial, trivial, rfl⟩

/-- C8 (amended): per pendulum the outer bob is tested first and wins when
both hit circles contain the point; the inner bob is grabbed only after an
outer miss; both tests use Euclidean distance ≤ the bob's radius; a miss of
both leaves the pendulum untouched. `pointerDown` over the collection
returns false exactly when every pendulum misses both tests, in which case
the system is unchanged; on the first hit (scanning in reverse creation
order) it records the drag state and returns true. The grab does NOT zero
the grabbed joint's angular velocity — every field except `draggingBob`
is preserved (the velocity is zeroed only later, by each pointer-move). -/
theorem pointerDown_hitTest_behavior :
    (∀ (p : Pendulum) (pos : ℝ × ℝ), p.distToBob2 pos ≤ p.bobRadius2 →
      p.startDrag pos = ({ p with draggingBob := 2 }, true)) ∧
    (∀ (p : Pendulum) (pos : ℝ × ℝ), ¬ p.distToBob2 pos ≤ p.bobRadius2 →
      p.distToBob1 pos ≤ p.bobRadius1 →
      p.startDrag pos = ({ p with draggingBob := 1 }, true)) ∧
    (∀ (p : Pendulum) (pos : ℝ × ℝ), ¬ p.distToBob2 pos ≤ p.bobRadius2 →
      ¬ p.distToBob1 pos ≤ p.bobRadius1 → p.startDrag pos = (p, false)) ∧
    (∀ (sys : PendulumSystem) (pos : ℝ × ℝ),
      ((sys.handleMouseDown pos).2 = false ↔
        ∀ p ∈ sys.pendulums, ¬ p.distToBob2 pos ≤ p.bobRadius2 ∧
          ¬ p.distToBob1 pos ≤ p.bobRadius1) ∧
      ((sys.handleMouseDown pos).2 = false →
        (sys.handleMouseDown pos).1 = sys)) := by
  refine ⟨startDrag_hit_outer, startDrag_hit_inner, startDrag_miss, ?_⟩
  intro sys pos
  rcases hr : (grabAux pos sys.pendulums.reverse).2 with _ | i
  · have hfst := grabAux_none_fst pos sys.pendulums.reverse hr
    have heq : sys.handleMouseDown pos
        = ({ sys with
              pendulums := (grabAux pos sys.pendulums.reverse).1.reverse },
           false) := by
      simp [PendulumSystem.handleMouseDown, hr]
    constructor
    · rw [heq]
      constructor
      · intro _ p hp
        have hall := (grabAux_none_iff pos sys.pendulums.reverse).1 hr
        have := hall p (List.mem_reverse.2 hp)
        exact (startDrag_false_iff p pos).1 this
      · intro _
        rfl
    · intro _
      rw [heq]
      rw [hfst]
      simp [List.reverse_reverse]
  · have heq : sys.handleMouseDown pos
        = ({ sys with
              pendulums := (grabAux pos sys.pendulums.reverse).1.reverse
              dragging_pendulum := some i },
           true) := by
      simp [PendulumSystem.handleMouseDown, hr]
    rw [heq]
    constructor
    · simp only [Bool.true_eq_false, false_iff]
      intro hall
      obtain ⟨X, q, Y, hl, hX, hq, hfst⟩ :=
        grabAux_some pos sys.pendulums.reverse i hr
      have hqmem : q ∈ sys.pendulums := by
        apply List.mem_reverse.1
        rw [hl]
        exact List.mem_append.2 (Or.inr (List.mem_cons_self _ _))
      have hmiss := hall q hqmem
      have hfalse := (startDrag_false_iff q pos).2 ⟨hmiss.1, hmiss.2⟩
      rw [hq] at hfalse
      cases hfalse
    · intro hcontra
      simp at hcontra

/-- Witness for C8: the pointer at B's outer bob (500, 200) is within its
hit radius, and `startDrag` grabs the outer bob. -/
theorem pointerDown_hitTest_behavior_witness :
    (pB.distToBob2 (500, 200) ≤ pB.bobRadius2) ∧
    pB.startDrag (500, 200) = ({ pB with draggingBob := 2 }, true) :=
  ⟨pB_dists.1, pointerDown_hitTest_behavior.1 pB (500, 200) pB_dists.1⟩

/-- C8 counterexample: `pointerDown` at the outer bob of a pendulum whose
outer joint still has angular velocity 5 grabs it (drag state 2, returns
true) but leaves the velocity at 5 — the claimed zeroing of the grabbed
joint's velocity does not happen. -/
theorem pointerDown_velocity_counterexample :
    (sysC8.handleMouseDown (0, 200)).2 = true ∧
    (sysC8.handleMouseDown (0, 200)).1.pendulums.map Pendulum.draggingBob
      = [2] ∧
    (sysC8.handleMouseDown (0, 200)).1.pendulums.map Pendulum.vel2 = [5] ∧
    (5 : ℝ) ≠ 0 := by
  have hhit : pC8.distToBob2 (0, 200) ≤ pC8.bobRadius2 := by
    obtain ⟨hb1, hb2⟩ := bob_eval pC8 rfl rfl rfl rfl
    have hx : pC8.offsetX = 0 := rfl
    have hy : pC8.offsetY = 0 := rfl
    rw [hx, hy] at hb2
    norm_num [Pendulum.distToBob2, hb2, show pC8.bobRadius2 = 10 from rfl,
      Real.sqrt_zero]
  have hsd : pC8.startDrag (0, 200) = (pC8drag, true) :=
    startDrag_hit_outer pC8 (0, 200) hhit
  have hg : grabAux (0, 200) [pC8] = ([pC8drag], some 0) := by
    simp only [grabAux, hsd]
    rfl
  have heq : sysC8.handleMouseDown (0, 200)
      = ({ sysC8 with pendulums := [pC8drag], dragging_pendulum := some 0 },
         true) := by
    simp only [PendulumSystem.handleMouseDown,
      show sysC8.pendulums.reverse = [pC8] from rfl, hg]
    rfl
  refine ⟨by rw [heq], by rw [heq]; rfl, by rw [heq]; rfl, by norm_num⟩

end DoublePendulum
